import Mathlib

/-
Shallow embedding of the socket core of the async-io repository
(src/socket/mod.rs, src/socket/unix.rs, src/socket/windows.rs).

Conventions of the embedding:
  - machine integers are Nat or Int; byte values are Nat taken modulo 256;
  - platform constants are those of Linux x86-64, the platform the unix
    backend compiles on (AF_UNIX = 1, sun_path capacity 108, the
    sa_family_t field is a 16-bit little-endian word at offset 0, the
    sockaddr_storage capacity is 128 bytes);
  - fallible operations return Except; an OS error is modelled by the raw
    error code (Int) that io::Error::last_os_error / WSAGetLastError
    would carry, so that preservation of the code is visible;
  - native calls are modelled by an oracle record holding the return
    value and the error code each call would produce, and the effect of a
    run is an explicit list of handle events (opened / closed), mirroring
    exactly the native calls the source issues.
-/

namespace AsyncIo

/-- Address family constants of the Linux backend (libc::AF_UNIX,
libc::AF_INET, libc::AF_INET6). -/
def AF_UNIX : Nat := 1

def AF_INET : Nat := 2

def AF_INET6 : Nat := 10

/-- Capacity of the sun_path array of libc::sockaddr_un on Linux. -/
def SUN_PATH_LEN : Nat := 108

/-- Offset of the sun_path field inside libc::sockaddr_un: the field
follows the 16-bit sun_family word. -/
def sun_path_offset : Nat := 2

/-- Size in bytes of libc::sockaddr_storage, the fixed buffer of Addr. -/
def SOCKADDR_STORAGE_SIZE : Nat := 128

/-- Kind of an io::Error as the source constructs it: either
ErrorKind::InvalidInput (used by Addr::unix) or a raw OS error code. -/
inductive ErrorKind where
  | invalidInput : ErrorKind
  | osError (code : Int) : ErrorKind
deriving DecidableEq, Repr

/-- Model of std::io::Error as built by io::Error::new(kind, msg). -/
structure IoError where
  kind : ErrorKind
  msg : String
deriving DecidableEq, Repr

/-- Model of the Addr struct of src/socket/mod.rs: a sockaddr_storage
buffer plus a logical length. from_raw_parts copies exactly len bytes
into the storage and the bytes beyond len are uninitialized memory in
the source, so only the len copied bytes are modelled: storage is the
list of the meaningful bytes and len is the logical length field. -/
structure Addr where
  storage : List Nat
  len : Nat
deriving DecidableEq, Repr

/-- Model of Addr::from_raw_parts (src/socket/mod.rs): copy len bytes
from the given source structure into the storage buffer. -/
def Addr.from_raw_parts (src : List Nat) (len : Nat) : Addr :=
  { storage := src.take len, len := len }

/-- The sun_path array after the copy loop of Addr::unix: the array is
zeroed up front and the path bytes are copied in by the zip loop, so
entry i holds the path byte at i when there is one and 0 otherwise. -/
def sun_path_bytes (bytes : List Nat) : List Nat :=
  (List.range SUN_PATH_LEN).map (fun i => bytes.getD i 0)

/-- Byte image of the local sockaddr_un value built by Addr::unix: the
16-bit sun_family word holding AF_UNIX (little endian) followed by the
sun_path array. -/
def sockaddr_un_bytes (bytes : List Nat) : List Nat :=
  [AF_UNIX % 256, AF_UNIX / 256 % 256] ++ sun_path_bytes bytes

/-- The logical length Addr::unix computes: the offset of sun_path plus
the path byte length, incremented by one exactly when the path has a
first byte and that byte is not NUL (the match on bytes.get(0) with
arms Some(0) | None and Some(_)). -/
def unix_len (bytes : List Nat) : Nat :=
  sun_path_offset + bytes.length +
    (match bytes.head? with
     | some 0 => 0
     | none => 0
     | some _ => 1)

/-- The Addr built by Addr::unix on its success path. -/
def Addr.unix_ok (bytes : List Nat) : Addr :=
  Addr.from_raw_parts (sockaddr_un_bytes bytes) (unix_len bytes)

/-- Model of Addr::unix (src/socket/unix.rs): the path is given as its
byte list. The match mirrors the source match on
(bytes.get(0), bytes.len().cmp(sun_path.len())) arm for arm, in order. -/
def Addr.unix (bytes : List Nat) : Except IoError Addr :=
  match bytes.head?, compare bytes.length SUN_PATH_LEN with
  | some 0, Ordering.gt =>
      Except.error ⟨ErrorKind.invalidInput, "path must be no longer than SUN_LEN"⟩
  | some 0, _ => Except.ok (Addr.unix_ok bytes)
  | _, Ordering.gt =>
      Except.error ⟨ErrorKind.invalidInput, "path must be shorter than SUN_LEN"⟩
  | _, Ordering.eq =>
      Except.error ⟨ErrorKind.invalidInput, "path must be shorter than SUN_LEN"⟩
  | _, _ => Except.ok (Addr.unix_ok bytes)

/-- A typed IPv4 endpoint: four address octets and a port. -/
structure SocketAddrV4 where
  a : Nat
  b : Nat
  c : Nat
  d : Nat
  port : Nat
deriving DecidableEq, Repr

/-- A typed IPv6 endpoint: sixteen address octets, a port, flow info and
a scope id. -/
structure SocketAddrV6 where
  octets : List Nat
  port : Nat
  flowinfo : Nat
  scope_id : Nat
deriving DecidableEq, Repr

/-- Byte image of the native sockaddr_in structure for an IPv4 endpoint:
family word (little endian), port in network byte order, the four
address octets, then the eight sin_zero padding bytes. The source
obtains these bytes by copying the std SocketAddrV4 value, whose layout
the code assumes to coincide with sockaddr_in; the assumed native
layout is what is modelled here. -/
def sockaddr_in_bytes (sa : SocketAddrV4) : List Nat :=
  [AF_INET % 256, AF_INET / 256 % 256]
    ++ [sa.port / 256 % 256, sa.port % 256]
    ++ [sa.a % 256, sa.b % 256, sa.c % 256, sa.d % 256]
    ++ List.replicate 8 0

/-- Size of the native sockaddr_in structure. -/
def sizeof_sockaddr_in : Nat := 16

/-- Byte image of the native sockaddr_in6 structure for an IPv6
endpoint: family word, port in network byte order, flow info, the
sixteen address octets, then the scope id. -/
def sockaddr_in6_bytes (sa : SocketAddrV6) : List Nat :=
  [AF_INET6 % 256, AF_INET6 / 256 % 256]
    ++ [sa.port / 256 % 256, sa.port % 256]
    ++ [sa.flowinfo % 256, sa.flowinfo / 256 % 256,
        sa.flowinfo / 65536 % 256, sa.flowinfo / 16777216 % 256]
    ++ (List.range 16).map (fun i => sa.octets.getD i 0 % 256)
    ++ [sa.scope_id % 256, sa.scope_id / 256 % 256,
        sa.scope_id / 65536 % 256, sa.scope_id / 16777216 % 256]

/-- Size of the native sockaddr_in6 structure. -/
def sizeof_sockaddr_in6 : Nat := 28

/-- Model of the From SocketAddrV4 conversion for Addr
(src/socket/mod.rs): from_raw_parts on the structure bytes with the
structure size as length. -/
def Addr.from_v4 (sa : SocketAddrV4) : Addr :=
  Addr.from_raw_parts (sockaddr_in_bytes sa) sizeof_sockaddr_in

/-- Model of the From SocketAddrV6 conversion for Addr. -/
def Addr.from_v6 (sa : SocketAddrV6) : Addr :=
  Addr.from_raw_parts (sockaddr_in6_bytes sa) sizeof_sockaddr_in6

/-- A typed endpoint, either IPv4 or IPv6 (std::net::SocketAddr). -/
inductive SocketAddr where
  | v4 (sa : SocketAddrV4) : SocketAddr
  | v6 (sa : SocketAddrV6) : SocketAddr
deriving DecidableEq, Repr

/-- Model of the From SocketAddr conversion for Addr: dispatch on the
variant. -/
def Addr.from_socket_addr : SocketAddr → Addr
  | SocketAddr.v4 sa => Addr.from_v4 sa
  | SocketAddr.v6 sa => Addr.from_v6 sa

/-- Model of the ToError::error classifier of src/socket/unix.rs, the
impl_is_error macro body: a native return value v is an error exactly
when it equals -1, and the error carries the last OS error code. -/
def error (v : Int) (errno : Int) : Except Int Int :=
  if v = -1 then Except.error errno else Except.ok v

/-- Handle events a run of the socket code can emit: a native call
allocated a handle, or a native close released one. -/
inductive Event where
  | opened (fd : Int) : Event
  | closed (fd : Int) : Event
deriving DecidableEq, Repr

/-- Model of the Socket struct of src/socket/unix.rs and
src/socket/windows.rs: the sole owner of one native handle. -/
structure Socket where
  fd : Int
deriving DecidableEq, Repr

/-- Oracle for the native calls issued by the Linux Socket::new: the
return value and pending error code of socket(2) and of the two
fcntl(2) calls. -/
structure UnixSyscalls where
  socket_ret : Int
  socket_errno : Int
  f_getfl_ret : Int
  f_getfl_errno : Int
  f_setfl_ret : Int
  f_setfl_errno : Int
deriving DecidableEq, Repr

/-- Model of the Linux Socket::new (src/socket/unix.rs): socket(2) with
SOCK_CLOEXEC, then fcntl F_GETFL, then fcntl F_SETFL with O_NONBLOCK.
Each return value goes through the error classifier and the question
mark operator returns the error at once. A successful socket(2) call
emits an opened event for the new fd; the source issues no close call
anywhere in this function, so no closed event ever appears. -/
def Socket.new_linux (o : UnixSyscalls) : Except Int Socket × List Event :=
  match error o.socket_ret o.socket_errno with
  | Except.error e => (Except.error e, [])
  | Except.ok fd =>
    match error o.f_getfl_ret o.f_getfl_errno with
    | Except.error e => (Except.error e, [Event.opened fd])
    | Except.ok _flags =>
      match error o.f_setfl_ret o.f_setfl_errno with
      | Except.error e => (Except.error e, [Event.opened fd])
      | Except.ok _ => (Except.ok ⟨fd⟩, [Event.opened fd])

/-- The value WSASocketW returns on failure (INVALID_SOCKET). -/
def INVALID_SOCKET : Int := -1

/-- Oracle for the native calls issued by the Windows Socket::new:
WSASocketW, SetHandleInformation and ioctlsocket. -/
structure WindowsSyscalls where
  wsa_socket_ret : Int
  wsa_socket_errno : Int
  set_handle_information_ret : Int
  set_handle_information_errno : Int
  ioctlsocket_ret : Int
  ioctlsocket_errno : Int
deriving DecidableEq, Repr

/-- Model of the Windows Socket::new (src/socket/windows.rs): WSASocketW
with WSA_FLAG_OVERLAPPED, then SetHandleInformation clearing
HANDLE_FLAG_INHERIT (failure is return value 0), then ioctlsocket with
FIONBIO (failure is any nonzero return). A successful WSASocketW call
emits an opened event; the source issues no closesocket call in this
function. -/
def Socket.new_windows (o : WindowsSyscalls) : Except Int Socket × List Event :=
  if o.wsa_socket_ret = INVALID_SOCKET then
    (Except.error o.wsa_socket_errno, [])
  else if o.set_handle_information_ret = 0 then
    (Except.error o.set_handle_information_errno, [Event.opened o.wsa_socket_ret])
  else if o.ioctlsocket_ret ≠ 0 then
    (Except.error o.ioctlsocket_errno, [Event.opened o.wsa_socket_ret])
  else
    (Except.ok ⟨o.wsa_socket_ret⟩, [Event.opened o.wsa_socket_ret])

/-- Outcome of one native connect call: success, or failure with the
OS error code the platform would report afterwards. POSIX connect
returns 0 on success and -1 on failure; Winsock connect returns 0 on
success and SOCKET_ERROR (-1) on failure. -/
inductive ConnectResult where
  | success : ConnectResult
  | fail (errno : Int) : ConnectResult
deriving DecidableEq, Repr

/-- The native return value of the connect call. -/
def ConnectResult.ret : ConnectResult → Int
  | ConnectResult.success => 0
  | ConnectResult.fail _ => -1

/-- The pending OS error code after the connect call. -/
def ConnectResult.errno : ConnectResult → Int
  | ConnectResult.success => 0
  | ConnectResult.fail e => e

/-- Model of the unix Socket::connect (src/socket/unix.rs): the native
return value goes through the error classifier and the Ok value is
dropped. -/
def Socket.connect_unix (r : ConnectResult) : Except Int Unit :=
  Except.map (fun _ => ()) (error r.ret r.errno)

/-- Model of the Windows Socket::connect (src/socket/windows.rs): Ok on
return value 0, otherwise the WSAGetLastError code. -/
def Socket.connect_windows (r : ConnectResult) : Except Int Unit :=
  if r.ret = 0 then Except.ok () else Except.error r.errno

/-- Model of IntoRawFd / IntoRawSocket for Socket: return the handle;
std::mem::forget(self) suppresses the Drop of the consumed value, so
the call issues no native call and emits no event. -/
def Socket.into_raw_fd (s : Socket) : Int × List Event :=
  (s.fd, [])

/-- Model of the Drop impl for Socket: one native close of the owned
handle (its error discarded). This runs only for a Socket value that is
actually dropped, not for one consumed by into_raw_fd. -/
def Socket.drop (s : Socket) : List Event :=
  [Event.closed s.fd]

/-- Model of std::net::TcpStream as the owner of one native handle. -/
structure TcpStream where
  fd : Int
deriving DecidableEq, Repr

/-- Model of the From Socket conversion for TcpStream
(src/socket/unix.rs): from_raw_fd(socket.into_raw_fd()), a pure
ownership transfer; the event list is the trace of the conversion. -/
def TcpStream.of_socket (s : Socket) : TcpStream × List Event :=
  let r := s.into_raw_fd
  ({ fd := r.1 }, r.2)

/-- Teardown of the TcpStream that now owns the handle: one native
close, issued by the stream type itself. -/
def TcpStream.drop (t : TcpStream) : List Event :=
  [Event.closed t.fd]

/-- Model of std::os::unix::net::UnixStream as the owner of one native
handle. -/
structure UnixStream where
  fd : Int
deriving DecidableEq, Repr

/-- Model of the From Socket conversion for UnixStream
(src/socket/unix.rs). -/
def UnixStream.of_socket (s : Socket) : UnixStream × List Event :=
  let r := s.into_raw_fd
  ({ fd := r.1 }, r.2)

/-- Teardown of the UnixStream that now owns the handle. -/
def UnixStream.drop (u : UnixStream) : List Event :=
  [Event.closed u.fd]

/-- Case analysis of Addr.unix: the call either succeeds with the
value Addr.unix_ok builds, which happens exactly when the path is
abstract of length at most the capacity or not abstract of length
strictly below the capacity, or fails with an InvalidInput error in the
complementary cases. -/
theorem addr_unix_cases (bytes : List Nat) :
    (Addr.unix bytes = Except.ok (Addr.unix_ok bytes) ∧
      ((bytes.head? = some 0 ∧ bytes.length ≤ SUN_PATH_LEN) ∨
       (bytes.head? ≠ some 0 ∧ bytes.length < SUN_PATH_LEN))) ∨
    (∃ e : IoError, Addr.unix bytes = Except.error e ∧
      e.kind = ErrorKind.invalidInput ∧
      ((bytes.head? = some 0 ∧ SUN_PATH_LEN < bytes.length) ∨
       (bytes.head? ≠ some 0 ∧ SUN_PATH_LEN ≤ bytes.length))) := by
  rcases bytes with _ | ⟨b, rest⟩
  · left
    refine ⟨rfl, Or.inr ⟨by simp, by norm_num [SUN_PATH_LEN]⟩⟩
  · rcases hc : compare (b :: rest).length SUN_PATH_LEN with _ | _ | _
    · rcases b with _ | k
      · left
        exact ⟨by simp only [Addr.unix, List.head?_cons, hc],
          Or.inl ⟨rfl, Nat.le_of_lt (Nat.compare_eq_lt.mp hc)⟩⟩
      · left
        exact ⟨by simp only [Addr.unix, List.head?_cons, hc],
          Or.inr ⟨by simp, Nat.compare_eq_lt.mp hc⟩⟩
    · rcases b with _ | k
      · left
        exact ⟨by simp only [Addr.unix, List.head?_cons, hc],
          Or.inl ⟨rfl, Nat.le_of_eq (Nat.compare_eq_eq.mp hc)⟩⟩
      · right
        exact ⟨⟨ErrorKind.invalidInput, "path must be shorter than SUN_LEN"⟩,
          by simp only [Addr.unix, List.head?_cons, hc],
          rfl, Or.inr ⟨by simp, Nat.le_of_eq (Nat.compare_eq_eq.mp hc).symm⟩⟩
    · rcases b with _ | k
      · right
        exact ⟨⟨ErrorKind.invalidInput, "path must be no longer than SUN_LEN"⟩,
          by simp only [Addr.unix, List.head?_cons, hc],
          rfl, Or.inl ⟨rfl, Nat.compare_eq_gt.mp hc⟩⟩
      · right
        exact ⟨⟨ErrorKind.invalidInput, "path must be shorter than SUN_LEN"⟩,
          by simp only [Addr.unix, List.head?_cons, hc],
          rfl, Or.inr ⟨by simp, Nat.le_of_lt (Nat.compare_eq_gt.mp hc)⟩⟩

/-- Oracle in which socket(2) succeeds with fd 3 and the following
fcntl F_GETFL call fails with errno 9 (EBADF). -/
def leak_syscalls_linux : UnixSyscalls :=
  { socket_ret := 3, socket_errno := 0
  , f_getfl_ret := -1, f_getfl_errno := 9
  , f_setfl_ret := 0, f_setfl_errno := 0 }

/-- Oracle in which WSASocketW succeeds with handle 300 and the
following SetHandleInformation call fails (return 0) with error code 6
(ERROR_INVALID_HANDLE). -/
def leak_syscalls_windows : WindowsSyscalls :=
  { wsa_socket_ret := 300, wsa_socket_errno := 0
  , set_handle_information_ret := 0, set_handle_information_errno := 6
  , ioctlsocket_ret := 0, ioctlsocket_errno := 0 }

/-- Claim C1: the claim states that when a later step of Socket::new
fails after the native creation call succeeded, the already-created
handle is closed before the error returns. The code does not do this:
in the run where socket(2) returns fd 3 and the next fcntl call fails,
Socket::new returns the error while the trace holds the opened event
for fd 3 and no closed event at all; likewise on Windows when
SetHandleInformation fails after WSASocketW returned handle 300. The
handle leaks on every partial-failure path. -/
theorem c1_new_leaks_on_partial_failure :
    (Socket.new_linux leak_syscalls_linux).1 = Except.error 9 ∧
    List.count (Event.opened 3) (Socket.new_linux leak_syscalls_linux).2 = 1 ∧
    List.count (Event.closed 3) (Socket.new_linux leak_syscalls_linux).2 = 0 ∧
    (Socket.new_windows leak_syscalls_windows).1 = Except.error 6 ∧
    List.count (Event.opened 300) (Socket.new_windows leak_syscalls_windows).2 = 1 ∧
    List.count (Event.closed 300) (Socket.new_windows leak_syscalls_windows).2 = 0 := by
  refine ⟨rfl, ?_, ?_, rfl, ?_, ?_⟩ <;> rfl

/-- Claim C5: Socket::connect returns Ok exactly when the native
connect call reports success, and every failing native connect call,
whatever its error code (a would-block or in-progress code included),
yields the last OS error code unchanged, on both platforms. -/
theorem c5_connect_surfaces_os_error : ∀ r : ConnectResult,
    (Socket.connect_unix r = Except.ok () ↔ r = ConnectResult.success) ∧
    (Socket.connect_windows r = Except.ok () ↔ r = ConnectResult.success) ∧
    (∀ e : Int, Socket.connect_unix (ConnectResult.fail e) = Except.error e) ∧
    (∀ e : Int, Socket.connect_windows (ConnectResult.fail e) = Except.error e) := by
  intro r
  refine ⟨?_, ?_, fun e => rfl, fun e => rfl⟩ <;>
    cases r <;>
      simp [Socket.connect_unix, Socket.connect_windows, error,
        ConnectResult.ret, ConnectResult.errno, Except.map]

/-- Claim C8: converting a Socket into TcpStream or UnixStream issues
no native call (into_raw_fd only forgets the value, so the Socket drop
never runs), and across the conversion plus the destruction of the
resulting stream exactly one close of the handle occurs, the one the
stream teardown issues. -/
theorem c8_conversion_single_close : ∀ s : Socket,
    (TcpStream.of_socket s).2 = [] ∧
    List.count (Event.closed s.fd)
      ((TcpStream.of_socket s).2 ++ TcpStream.drop (TcpStream.of_socket s).1) = 1 ∧
    (UnixStream.of_socket s).2 = [] ∧
    List.count (Event.closed s.fd)
      ((UnixStream.of_socket s).2 ++ UnixStream.drop (UnixStream.of_socket s).1) = 1 := by
  intro s
  refine ⟨rfl, ?_, rfl, ?_⟩ <;>
    simp [TcpStream.of_socket, UnixStream.of_socket, Socket.into_raw_fd,
      TcpStream.drop, UnixStream.drop]

/-- Claim C10: the error classifier of the POSIX backend marks a native
return value as an error exactly when it equals -1, carrying the last
OS error code, and returns every other value (other negative values
included) unchanged; consequently the Linux Socket::new succeeds
exactly when all three underlying calls return a value different from
-1, and the unix Socket::connect succeeds exactly when the native
return value differs from -1. -/
theorem c10_error_iff_minus_one : ∀ v e : Int,
    ((error v e = Except.error e) ↔ v = -1) ∧
    ((error v e = Except.ok v) ↔ v ≠ -1) ∧
    (∀ o : UnixSyscalls, (∃ s, (Socket.new_linux o).1 = Except.ok s) ↔
      (o.socket_ret ≠ -1 ∧ o.f_getfl_ret ≠ -1 ∧ o.f_setfl_ret ≠ -1)) ∧
    (∀ r : ConnectResult, (Socket.connect_unix r = Except.ok ()) ↔ r.ret ≠ -1) := by
  intro v e
  refine ⟨?_, ?_, ?_, ?_⟩
  · by_cases h : v = -1 <;> simp [error, h]
  · by_cases h : v = -1 <;> simp [error, h]
  · intro o
    by_cases h1 : o.socket_ret = -1 <;>
      by_cases h2 : o.f_getfl_ret = -1 <;>
        by_cases h3 : o.f_setfl_ret = -1 <;>
          simp [Socket.new_linux, error, h1, h2, h3]
  · intro r
    cases r <;>
      simp [Socket.connect_unix, error, ConnectResult.ret, Except.map]

/-- Claim C2: Addr::unix returns an InvalidInput encoding error exactly
when the path does not start with a NUL byte and its byte length is at
least the sun_path capacity, or the path starts with a NUL byte and its
byte length strictly exceeds that capacity; every other path yields Ok.
The function is pure: the embedding shows the result is fully
determined by the path bytes before any native call could occur. -/
theorem c2_unix_error_iff : ∀ bytes : List Nat,
    ((∃ e : IoError, Addr.unix bytes = Except.error e ∧
        e.kind = ErrorKind.invalidInput) ↔
      ((bytes.head? ≠ some 0 ∧ SUN_PATH_LEN ≤ bytes.length) ∨
       (bytes.head? = some 0 ∧ SUN_PATH_LEN < bytes.length))) ∧
    ((∃ a : Addr, Addr.unix bytes = Except.ok a) ↔
      ¬ ((bytes.head? ≠ some 0 ∧ SUN_PATH_LEN ≤ bytes.length) ∨
         (bytes.head? = some 0 ∧ SUN_PATH_LEN < bytes.length))) := by
  intro bytes
  rcases addr_unix_cases bytes with ⟨hok, hcond⟩ | ⟨e, herr, hkind, hcond⟩
  · have hnot : ¬ ((bytes.head? ≠ some 0 ∧ SUN_PATH_LEN ≤ bytes.length) ∨
        (bytes.head? = some 0 ∧ SUN_PATH_LEN < bytes.length)) := by
      rcases hcond with ⟨h1, h2⟩ | ⟨h1, h2⟩ <;>
        rintro (⟨g1, g2⟩ | ⟨g1, g2⟩) <;> first | exact g1 h1 | exact h1 g1 | omega
    constructor
    · constructor
      · rintro ⟨e, he, _⟩
        rw [hok] at he
        exact absurd he (by simp)
      · intro h
        exact absurd h hnot
    · constructor
      · intro _
        exact hnot
      · intro _
        exact ⟨Addr.unix_ok bytes, hok⟩
  · have hyes : (bytes.head? ≠ some 0 ∧ SUN_PATH_LEN ≤ bytes.length) ∨
        (bytes.head? = some 0 ∧ SUN_PATH_LEN < bytes.length) := by
      rcases hcond with ⟨h1, h2⟩ | ⟨h1, h2⟩
      · exact Or.inr ⟨h1, h2⟩
      · exact Or.inl ⟨h1, h2⟩
    constructor
    · exact ⟨fun _ => hyes, fun _ => ⟨e, herr, hkind⟩⟩
    · constructor
      · rintro ⟨a, ha⟩
        rw [herr] at ha
        exact absurd ha (by simp)
      · intro h
        exact absurd hyes h

/-- Claim C3 counterexample: the empty path is accepted by Addr::unix
and does not start with a NUL byte, yet the produced length is the bare
sun_path offset, not the offset plus path length plus one that the
claim requires for a path not starting with NUL. -/
theorem c3_empty_path_counterexample :
    ([] : List Nat).head? ≠ some 0 ∧
    Addr.unix [] = Except.ok (Addr.unix_ok []) ∧
    (Addr.unix_ok []).len = sun_path_offset + ([] : List Nat).length ∧
    (Addr.unix_ok []).len ≠ sun_path_offset + ([] : List Nat).length + 1 := by
  refine ⟨by simp, rfl, rfl,
    by simp [Addr.unix_ok, Addr.from_raw_parts, unix_len]⟩

/-- Claim C3 as amended: for every path accepted by Addr::unix the
logical length is the sun_path offset plus the path byte length, plus
one exactly when the path is non-empty and its first byte is not NUL;
the empty path, like an abstract path, gets no terminator. -/
theorem c3_len_formula_amended : ∀ (bytes : List Nat) (a : Addr),
    Addr.unix bytes = Except.ok a →
    a.len = sun_path_offset + bytes.length +
      (if bytes ≠ [] ∧ bytes.head? ≠ some 0 then 1 else 0) := by
  intro bytes a h
  rcases addr_unix_cases bytes with ⟨hok, _⟩ | ⟨e, herr, _, _⟩
  · rw [hok] at h
    have ha : a = Addr.unix_ok bytes := by
      cases h
      rfl
    subst ha
    rcases bytes with _ | ⟨_ | k, rest⟩ <;>
      simp [Addr.unix_ok, Addr.from_raw_parts, unix_len]
  · rw [herr] at h
    exact absurd h (by simp)

/-- Witness for the amended claim C3 at the concrete one-byte path
holding the single byte 65. -/
theorem c3_len_formula_witness :
    (Addr.unix_ok [65]).len = sun_path_offset + [65].length +
      (if ([65] : List Nat) ≠ [] ∧ ([65] : List Nat).head? ≠ some 0 then 1 else 0) :=
  c3_len_formula_amended [65] (Addr.unix_ok [65]) rfl

/-- The byte image of the sockaddr_un structure always holds the family
word plus the full sun_path array. -/
theorem sockaddr_un_bytes_length (bytes : List Nat) :
    (sockaddr_un_bytes bytes).length = sun_path_offset + SUN_PATH_LEN := by
  simp [sockaddr_un_bytes, sun_path_bytes, sun_path_offset]
  omega

/-- Reading the storage of a successful Addr::unix result inside the
logical length and inside the sun_path capacity yields the sun_path
entry: the path byte when the index is below the path length and the
zero the up-front zeroing left there otherwise. -/
theorem unix_ok_storage_get (bytes : List Nat) (i : Nat)
    (hlt : sun_path_offset + i < unix_len bytes)
    (hcap : i < SUN_PATH_LEN) :
    (Addr.unix_ok bytes).storage.get? (sun_path_offset + i) =
      some (bytes.getD i 0) := by
  have hst : (Addr.unix_ok bytes).storage =
      (sockaddr_un_bytes bytes).take (unix_len bytes) := rfl
  rw [hst, List.get?_eq_getElem?, List.getElem?_take_of_lt hlt]
  have hco : sockaddr_un_bytes bytes =
      (AF_UNIX % 256) :: (AF_UNIX / 256 % 256) :: sun_path_bytes bytes := rfl
  have hix : sun_path_offset + i = i + 1 + 1 := by
    simp [sun_path_offset]
    omega
  rw [hco, hix, List.getElem?_cons_succ, List.getElem?_cons_succ]
  simp [sun_path_bytes, List.getElem?_range hcap]

/-- Claim C6 counterexample: the empty path does not start with a NUL
byte and is shorter than the capacity, and Addr::unix accepts it, but
the produced logical length is just the sun_path offset, so the claimed
terminator position is not inside the logical length and the byte there
is not a copied zero (in the source it is uninitialized storage). -/
theorem c6_empty_path_counterexample :
    ([] : List Nat).head? ≠ some 0 ∧
    ([] : List Nat).length < SUN_PATH_LEN ∧
    Addr.unix [] = Except.ok (Addr.unix_ok []) ∧
    ¬ (sun_path_offset + ([] : List Nat).length < (Addr.unix_ok []).len) ∧
    (Addr.unix_ok []).storage.get? (sun_path_offset + ([] : List Nat).length) ≠
      some 0 := by
  refine ⟨by simp, by norm_num [SUN_PATH_LEN], rfl, ?_, ?_⟩
  · simp [Addr.unix_ok, Addr.from_raw_parts, unix_len]
  · decide

/-- Claim C6 as amended: for every non-empty path that does not start
with a NUL byte and is strictly shorter than the sun_path capacity,
Addr::unix succeeds, the terminator position lies inside the logical
length, the storage byte there is zero, and the storage bytes at the
path positions are exactly the path bytes. -/
theorem c6_terminator_amended : ∀ (bytes : List Nat) (a : Addr),
    bytes ≠ [] →
    bytes.head? ≠ some 0 →
    bytes.length < SUN_PATH_LEN →
    Addr.unix bytes = Except.ok a →
    a.len = sun_path_offset + bytes.length + 1 ∧
    sun_path_offset + bytes.length < a.len ∧
    a.storage.get? (sun_path_offset + bytes.length) = some 0 ∧
    (∀ i, i < bytes.length →
      a.storage.get? (sun_path_offset + i) = bytes.get? i) := by
  intro bytes a hne hnul hlen h
  rcases addr_unix_cases bytes with ⟨hok, _⟩ | ⟨e, herr, _, _⟩
  · rw [hok] at h
    have ha : a = Addr.unix_ok bytes := by
      cases h
      rfl
    subst ha
    have hlenq : unix_len bytes = sun_path_offset + bytes.length + 1 := by
      rcases bytes with _ | ⟨_ | k, rest⟩
      · exact absurd rfl hne
      · exact absurd rfl hnul
      · simp [unix_len]
    have hlift : (Addr.unix_ok bytes).len = unix_len bytes := rfl
    refine ⟨by rw [hlift, hlenq], by rw [hlift, hlenq]; omega, ?_, ?_⟩
    · have hr := unix_ok_storage_get bytes bytes.length (by omega) hlen
      rw [hr]
      have hnone : bytes.get? bytes.length = none := by
        simp
      rw [List.getD_eq_getD_get? bytes 0 bytes.length, hnone]
      rfl
    · intro i hi
      have hr := unix_ok_storage_get bytes i (by omega) (Nat.lt_trans hi hlen)
      rw [hr, List.getD_eq_getD_get? bytes 0 i]
      have hv : ∃ v, bytes.get? i = some v := by
        rw [List.get?_eq_getElem?]
        exact ⟨bytes[i], List.getElem?_eq_getElem hi⟩
      rcases hv with ⟨v, hv⟩
      rw [hv]
      rfl
  · rw [herr] at h
    exact absurd h (by simp)

/-- Witness for the amended claim C6 at the concrete two-byte path
holding the bytes 65 and 66. -/
theorem c6_terminator_witness :
    (Addr.unix_ok [65, 66]).len = sun_path_offset + [65, 66].length + 1 ∧
    sun_path_offset + [65, 66].length < (Addr.unix_ok [65, 66]).len ∧
    (Addr.unix_ok [65, 66]).storage.get? (sun_path_offset + [65, 66].length) =
      some 0 ∧
    (∀ i, i < [65, 66].length →
      (Addr.unix_ok [65, 66]).storage.get? (sun_path_offset + i) =
        [65, 66].get? i) :=
  c6_terminator_amended [65, 66] (Addr.unix_ok [65, 66])
    (by decide) (by decide) (by decide) rfl

/-- The logical length of a successful Addr::unix result never exceeds
the size of the sockaddr_un structure. -/
theorem unix_len_le (bytes : List Nat)
    (h : (bytes.head? = some 0 ∧ bytes.length ≤ SUN_PATH_LEN) ∨
         (bytes.head? ≠ some 0 ∧ bytes.length < SUN_PATH_LEN)) :
    unix_len bytes ≤ sun_path_offset + SUN_PATH_LEN := by
  rcases bytes with _ | ⟨_ | k, rest⟩ <;>
    rcases h with ⟨h1, h2⟩ | ⟨h1, h2⟩ <;>
      simp_all [unix_len, SUN_PATH_LEN, sun_path_offset] <;> omega

/-- Claim C7: every Addr the public constructors produce satisfies the
invariant that its logical length is at most the 128-byte capacity of
the sockaddr_storage buffer, and its storage carries exactly the len
meaningful bytes (from_raw_parts copies len bytes and nothing else),
so no operation of this core can read a byte at or beyond the logical
length: len and as_ptr expose only the length field and those bytes,
and connect hands exactly them to the native call. -/
theorem c7_addr_len_invariant :
    (∀ (bytes : List Nat) (a : Addr), Addr.unix bytes = Except.ok a →
      a.len ≤ SOCKADDR_STORAGE_SIZE ∧ a.storage.length = a.len) ∧
    (∀ sa : SocketAddrV4, (Addr.from_v4 sa).len ≤ SOCKADDR_STORAGE_SIZE ∧
      (Addr.from_v4 sa).storage.length = (Addr.from_v4 sa).len) ∧
    (∀ sa : SocketAddrV6, (Addr.from_v6 sa).len ≤ SOCKADDR_STORAGE_SIZE ∧
      (Addr.from_v6 sa).storage.length = (Addr.from_v6 sa).len) ∧
    (∀ sa : SocketAddr, (Addr.from_socket_addr sa).len ≤ SOCKADDR_STORAGE_SIZE ∧
      (Addr.from_socket_addr sa).storage.length = (Addr.from_socket_addr sa).len) := by
  have hv4 : ∀ sa : SocketAddrV4,
      (Addr.from_v4 sa).len ≤ SOCKADDR_STORAGE_SIZE ∧
      (Addr.from_v4 sa).storage.length = (Addr.from_v4 sa).len := by
    intro sa
    constructor
    · norm_num [Addr.from_v4, Addr.from_raw_parts, sizeof_sockaddr_in,
        SOCKADDR_STORAGE_SIZE]
    · simp [Addr.from_v4, Addr.from_raw_parts, sockaddr_in_bytes,
        sizeof_sockaddr_in]
  have hv6 : ∀ sa : SocketAddrV6,
      (Addr.from_v6 sa).len ≤ SOCKADDR_STORAGE_SIZE ∧
      (Addr.from_v6 sa).storage.length = (Addr.from_v6 sa).len := by
    intro sa
    constructor
    · norm_num [Addr.from_v6, Addr.from_raw_parts, sizeof_sockaddr_in6,
        SOCKADDR_STORAGE_SIZE]
    · simp [Addr.from_v6, Addr.from_raw_parts, sockaddr_in6_bytes,
        sizeof_sockaddr_in6]
  refine ⟨?_, hv4, hv6, ?_⟩
  · intro bytes a h
    rcases addr_unix_cases bytes with ⟨hok, hcond⟩ | ⟨e, herr, _, _⟩
    · rw [hok] at h
      have ha : a = Addr.unix_ok bytes := by
        cases h
        rfl
      subst ha
      have hle := unix_len_le bytes hcond
      have hlift : (Addr.unix_ok bytes).len = unix_len bytes := rfl
      constructor
      · rw [hlift]
        refine Nat.le_trans hle ?_
        norm_num [sun_path_offset, SUN_PATH_LEN, SOCKADDR_STORAGE_SIZE]
      · have hst : (Addr.unix_ok bytes).storage =
            (sockaddr_un_bytes bytes).take (unix_len bytes) := rfl
        rw [hst, hlift, List.length_take, sockaddr_un_bytes_length]
        exact Nat.min_eq_left hle
    · rw [herr] at h
      exact absurd h (by simp)
  · intro sa
    rcases sa with sa | sa
    · exact hv4 sa
    · exact hv6 sa

end AsyncIo
